import Mathlib

/-!
Shallow embedding of the todo-list View-State Synchronizer in `src/App.tsx`.

The component owns four pieces of state (`todos`, `newTodo`, `editingId`,
`editTitle`) and eight operations (`fetchTodos`, `addTodo`, `updateTodo`,
`deleteTodo`, `toggleTodo`, `startEdit`, `saveEdit`, `cancelEdit`).  Each
operation performs at most one network call and then patches the local state.

Network effects are made explicit: an operation takes the outcome of its
network call (`NetResult`) as an argument and returns, besides the new state,
the list of HTTP requests it issued and whether it terminated by throwing
(an `await` on a rejected promise rethrows, skipping the rest of the function
body).  JavaScript truthiness of the guards is modelled exactly: `!newTodo`
is true iff the string is empty, `editingId &&` is false for `null` and for
the number `0`, and `editTitle.trim()` is falsy iff the trimmed string is
empty.
-/

/-- One todo record, `interface Todo` in `App.tsx`:
`{ id: number; title: string; completed: boolean }`. -/
structure Todo where
  id : Int
  title : String
  completed : Bool
deriving DecidableEq, Repr

/-- The component state: the local list, the new-item draft text, the id of
the item under edit (or `none`), and the edit draft text. -/
structure AppState where
  todos : List Todo
  newTodo : String
  editingId : Option Int
  editTitle : String
deriving DecidableEq, Repr

/-- Outcome of one network call as seen by the awaiting code: `ok a` when the
`fetch` (and, where applicable, `res.json()`) resolved with value `a`, `err`
when the awaited promise rejected, which rethrows in the awaiting function. -/
inductive NetResult (α : Type) where
  | ok (a : α)
  | err
deriving DecidableEq, Repr

/-- A JSON value as far as the client inspects it: `Array.isArray` is the
only shape check performed, so a value is either an array (whose elements
the client uses as `Todo`s without further validation) or anything else. -/
inductive JValue where
  | jarr (items : List Todo)
  | jother
deriving DecidableEq, Repr

/-- The HTTP requests the synchronizer can issue against the Item Store. -/
inductive Request where
  | list
  | create (title : String)
  | update (id : Int) (title : String)
  | del (id : Int)
  | toggle (id : Int)
deriving DecidableEq, Repr

/-- Result of running one operation: the state after it returns (or after it
rethrows), the requests it issued, and whether it terminated by throwing. -/
structure OpResult where
  state : AppState
  requests : List Request
  threw : Bool
deriving DecidableEq, Repr

/-- Operation `fetchTodos` (App.tsx lines 17–26): `GET /api/todos` inside a
`try`/`catch`; a transport or JSON-parse failure is caught, logged, and the
list is reset to `[]`; a parsed non-array also resets to `[]`; a parsed
array replaces the list wholesale.  Never rethrows. -/
def fetchTodos (s : AppState) (net : NetResult JValue) : OpResult :=
  match net with
  | NetResult.ok (JValue.jarr l) => ⟨{ s with todos := l }, [Request.list], false⟩
  | NetResult.ok JValue.jother => ⟨{ s with todos := [] }, [Request.list], false⟩
  | NetResult.err => ⟨{ s with todos := [] }, [Request.list], false⟩

/-- Operation `addTodo` (App.tsx lines 28–38): `if (!newTodo) return;` then
`POST /api/todos` with the draft as title; on success append the returned
item and clear the draft; a rejected promise rethrows before the patch. -/
def addTodo (s : AppState) (net : NetResult Todo) : OpResult :=
  if s.newTodo = "" then ⟨s, [], false⟩
  else
    match net with
    | NetResult.ok data =>
        ⟨{ s with todos := s.todos ++ [data], newTodo := "" },
         [Request.create s.newTodo], false⟩
    | NetResult.err => ⟨s, [Request.create s.newTodo], true⟩

/-- Operation `updateTodo` (App.tsx lines 40–48): `PUT /api/todos/{id}`; on success
replace every local item whose `id` equals the returned item's `id` with the
returned item (`prev.map(t => (t.id === data.id ? data : t))`); a rejected
promise rethrows before the patch. -/
def updateTodo (s : AppState) (id : Int) (title : String) (net : NetResult Todo) : OpResult :=
  match net with
  | NetResult.ok data =>
      ⟨{ s with todos := s.todos.map (fun t => if t.id = data.id then data else t) },
       [Request.update id title], false⟩
  | NetResult.err => ⟨s, [Request.update id title], true⟩

/-- Operation `deleteTodo` (App.tsx lines 50–55): `DELETE /api/todos/{id}` (body
ignored); on success remove every local item whose `id` equals the argument
(`prev.filter(t => t.id !== id)`); a rejected promise rethrows first. -/
def deleteTodo (s : AppState) (id : Int) (net : NetResult Unit) : OpResult :=
  match net with
  | NetResult.ok _ =>
      ⟨{ s with todos := s.todos.filter (fun t => t.id ≠ id) }, [Request.del id], false⟩
  | NetResult.err => ⟨s, [Request.del id], true⟩

/-- Operation `toggleTodo` (App.tsx lines 57–63): `PATCH /api/todos/{id}/toggle`; on
success replace every local item whose `id` equals the returned item's `id`
with the returned item; a rejected promise rethrows before the patch. -/
def toggleTodo (s : AppState) (id : Int) (net : NetResult Todo) : OpResult :=
  match net with
  | NetResult.ok data =>
      ⟨{ s with todos := s.todos.map (fun t => if t.id = data.id then data else t) },
       [Request.toggle id], false⟩
  | NetResult.err => ⟨s, [Request.toggle id], true⟩

/-- Operation `startEdit` (App.tsx lines 65–68): set `editingId` to the item's id and
the edit draft to its title; no network call. -/
def startEdit (s : AppState) (todo : Todo) : OpResult :=
  ⟨{ s with editingId := some todo.id, editTitle := todo.title }, [], false⟩

/-- JavaScript `String.prototype.trim`, modelled structurally: drop leading
and trailing whitespace characters.  (`Char.isWhitespace` stands in for the
ECMAScript WhiteSpace/LineTerminator class; the two agree on ASCII.) -/
def jsTrim (s : String) : String :=
  String.mk (((s.data.dropWhile Char.isWhitespace).reverse.dropWhile
    Char.isWhitespace).reverse)

/-- JavaScript truthiness of `editingId` (a `number | null`): falsy for
`null` and for `0`. -/
def editingIdTruthy (o : Option Int) : Bool :=
  match o with
  | none => false
  | some n => n ≠ 0

/-- Operation `saveEdit` (App.tsx lines 70–76):
`if (editingId && editTitle.trim()) { await updateTodo(...); setEditingId(null);
setEditTitle(""); }`.  When the guard fails nothing at all happens (no `else`
branch).  When the guard holds it awaits `updateTodo` with the trimmed draft;
if that rejects, the rethrow skips the two clearing calls, so the edit state
survives; on success the list patch is applied and the edit state is cleared. -/
def saveEdit (s : AppState) (net : NetResult Todo) : OpResult :=
  if editingIdTruthy s.editingId ∧ jsTrim s.editTitle ≠ "" then
    match s.editingId with
    | some eid =>
        let r := updateTodo s eid (jsTrim s.editTitle) net
        if r.threw then r
        else ⟨{ r.state with editingId := none, editTitle := "" }, r.requests, false⟩
    | none => ⟨s, [], false⟩
  else ⟨s, [], false⟩

/-- Operation `cancelEdit` (App.tsx lines 78–81): clear `editingId` and the edit draft;
no network call. -/
def cancelEdit (s : AppState) : OpResult :=
  ⟨{ s with editingId := none, editTitle := "" }, [], false⟩

/-- A sequence of Add interactions: for each step the user types a draft and
clicks Add, the server answering with the given item.  Models
`setNewTodo(d)` followed by a successful `addTodo`. -/
def addSeq (s : AppState) (steps : List (String × Todo)) : AppState :=
  match steps with
  | [] => s
  | (d, data) :: rest => addSeq (addTodo { s with newTodo := d } (NetResult.ok data)).state rest

/-- Predicate: `x` occurs strictly before `y` in `l`: the two-element list `[x, y]` is a
(not necessarily contiguous) subsequence of `l`, i.e. there are positions
`i < j` with `l.get i = x` and `l.get j = y`. -/
def Precedes (x y : Todo) (l : List Todo) : Prop :=
  List.Sublist [x, y] l

instance (x y : Todo) (l : List Todo) : Decidable (Precedes x y l) :=
  inferInstanceAs (Decidable (List.Sublist [x, y] l))

section Theorems

/-- C1 (confirmed).  After a successful `Rename(id, title)` or
`Toggle(id)` whose response is the item `data`, the local list keeps its
length, and position by position: the item whose `id` matches the response's
`id` is replaced by the full returned item, and every other item is unchanged
by value.  (The patch in the source matches on the *response* item's id,
`t.id === data.id`; under the Item Store contract the response echoes the
requested id.) -/
theorem rename_toggle_frame (s : AppState) (id : Int) (title : String)
    (data : Todo) (i : Nat) (t : Todo) (h : s.todos[i]? = some t) :
    (updateTodo s id title (NetResult.ok data)).state.todos[i]?
        = some (if t.id = data.id then data else t)
    ∧ (toggleTodo s id (NetResult.ok data)).state.todos[i]?
        = some (if t.id = data.id then data else t)
    ∧ (updateTodo s id title (NetResult.ok data)).state.todos.length = s.todos.length
    ∧ (toggleTodo s id (NetResult.ok data)).state.todos.length = s.todos.length := by
  refine ⟨?_, ?_, ?_, ?_⟩ <;>
    simp [updateTodo, toggleTodo, List.getElem?_map, h]

/-- Witness for C1: a concrete two-item list where renaming item 1 changes
exactly the matching position. -/
theorem rename_toggle_frame_witness :
    (updateTodo ⟨[⟨1, "a", false⟩, ⟨2, "b", false⟩], "", none, ""⟩ 1 "c"
        (NetResult.ok ⟨1, "c", false⟩)).state.todos[0]?
      = some (if (Todo.mk 1 "a" false).id = (Todo.mk 1 "c" false).id
              then ⟨1, "c", false⟩ else ⟨1, "a", false⟩) :=
  (rename_toggle_frame ⟨[⟨1, "a", false⟩, ⟨2, "b", false⟩], "", none, ""⟩ 1 "c"
    ⟨1, "c", false⟩ 0 ⟨1, "a", false⟩ (by decide)).1

/-- C2 is false as stated: the guard in `addTodo` is `if (!newTodo)`,
which only stops the *empty* draft; a whitespace-only draft such as `" "` is
truthy, so Add does issue a create request and does change the state.
Counterexample: draft `" "` (whitespace-only), a successful response. -/
theorem addTodo_whitespace_counterexample :
    jsTrim " " = ""
    ∧ ¬ ((addTodo ⟨[], " ", none, ""⟩ (NetResult.ok ⟨1, "x", false⟩)).requests = []
         ∧ (addTodo ⟨[], " ", none, ""⟩ (NetResult.ok ⟨1, "x", false⟩)).state
             = ⟨[], " ", none, ""⟩) := by
  decide

/-- C2 (corrected).  Add is a no-op — no network request, local list and
draft text unchanged — exactly when the draft text is the empty string; a
whitespace-only but non-empty draft is not covered by the guard. -/
theorem addTodo_empty_noop (s : AppState) (net : NetResult Todo)
    (h : s.newTodo = "") :
    addTodo s net = ⟨s, [], false⟩ := by
  simp [addTodo, h]

/-- Witness for the corrected C2 at the empty draft. -/
theorem addTodo_empty_noop_witness :
    addTodo ⟨[], "", none, ""⟩ (NetResult.ok ⟨1, "x", false⟩)
      = ⟨⟨[], "", none, ""⟩, [], false⟩ :=
  addTodo_empty_noop ⟨[], "", none, ""⟩ (NetResult.ok ⟨1, "x", false⟩) rfl

/-- C3 (confirmed).  `fetchTodos` never throws to its caller, and it ends
in exactly one of two outcomes: if the network call resolved with a JSON
array, the local list is replaced wholesale by that array; in every other
case (transport failure, non-JSON body — both rejected promises caught by the
`catch` — or a parsed non-array value) the local list is reset to `[]`. -/
theorem fetchTodos_dichotomy (s : AppState) (net : NetResult JValue) :
    (fetchTodos s net).threw = false
    ∧ ((∃ l, net = NetResult.ok (JValue.jarr l)
          ∧ (fetchTodos s net).state.todos = l)
       ∨ ((∀ l, net ≠ NetResult.ok (JValue.jarr l))
          ∧ (fetchTodos s net).state.todos = [])) := by
  cases net with
  | ok v =>
    cases v with
    | jarr l => exact ⟨rfl, Or.inl ⟨l, rfl, rfl⟩⟩
    | jother =>
      refine ⟨rfl, Or.inr ⟨?_, rfl⟩⟩
      intro l h
      simp at h
  | err =>
    refine ⟨rfl, Or.inr ⟨?_, rfl⟩⟩
    intro l h
    simp at h

/-- C4 is false as stated: `saveEdit` awaits `updateTodo` *before* the two
clearing calls, so when the Rename promise rejects the rethrow skips
`setEditingId(null)` and `setEditTitle("")` and the edit state stays
`Editing`.  Counterexample: `editingId = 1` (set), draft `"x"`
(non-whitespace), a failed network call. -/
theorem saveEdit_failure_counterexample :
    editingIdTruthy (some 1) = true
    ∧ jsTrim "x" ≠ ""
    ∧ (saveEdit ⟨[], "", some 1, "x"⟩ NetResult.err).state.editingId ≠ none := by
  decide

/-- C4 (corrected).  With `editingId` set to a truthy id and a non-whitespace
draft, SaveEdit clears `editingId` and the edit draft when the Rename call
succeeds; when the Rename call fails, the exception propagates out of
SaveEdit and the whole state — edit mode included — is left unchanged, so the
edit state does stay `Editing` on failure. -/
theorem saveEdit_clears_only_on_success (s : AppState) (n : Int) (data : Todo)
    (hid : s.editingId = some n) (hn : n ≠ 0) (ht : jsTrim s.editTitle ≠ "") :
    (saveEdit s (NetResult.ok data)).state.editingId = none
    ∧ (saveEdit s (NetResult.ok data)).state.editTitle = ""
    ∧ (saveEdit s (NetResult.ok data)).threw = false
    ∧ saveEdit s NetResult.err
        = ⟨s, [Request.update n (jsTrim s.editTitle)], true⟩ := by
  refine ⟨?_, ?_, ?_, ?_⟩ <;>
    simp [saveEdit, editingIdTruthy, hid, hn, ht, updateTodo]

/-- Witness for the corrected C4 at a concrete editing state. -/
theorem saveEdit_clears_only_on_success_witness :
    (saveEdit ⟨[⟨1, "a", false⟩], "", some 1, "x"⟩
        (NetResult.ok ⟨1, "b", false⟩)).state.editingId = none
    ∧ (saveEdit ⟨[⟨1, "a", false⟩], "", some 1, "x"⟩
        (NetResult.ok ⟨1, "b", false⟩)).state.editTitle = ""
    ∧ (saveEdit ⟨[⟨1, "a", false⟩], "", some 1, "x"⟩
        (NetResult.ok ⟨1, "b", false⟩)).threw = false
    ∧ saveEdit ⟨[⟨1, "a", false⟩], "", some 1, "x"⟩ NetResult.err
        = ⟨⟨[⟨1, "a", false⟩], "", some 1, "x"⟩,
           [Request.update 1 (jsTrim "x")], true⟩ :=
  saveEdit_clears_only_on_success ⟨[⟨1, "a", false⟩], "", some 1, "x"⟩ 1
    ⟨1, "b", false⟩ rfl (by decide) (by decide)

/-- C5 is false as stated: when the draft is whitespace-only the guard
`if (editingId && editTitle.trim())` fails and `saveEdit` does nothing at
all — in particular `editingId` is *not* cleared, so edit-mode does not
return to `Idle`.  Counterexample: `editingId = 1`, draft `" "`. -/
theorem saveEdit_whitespace_counterexample :
    jsTrim " " = ""
    ∧ (saveEdit ⟨[⟨1, "a", false⟩], "", some 1, " "⟩
        NetResult.err).state.editingId ≠ none := by
  decide

/-- C5 (corrected).  SaveEdit with a whitespace-only draft performs no
network call and leaves the entire state unchanged: the target item's title
is untouched, but `editingId` is not cleared either — edit-mode stays
`Editing` rather than returning to `Idle`. -/
theorem saveEdit_whitespace_noop (s : AppState) (net : NetResult Todo)
    (h : jsTrim s.editTitle = "") :
    saveEdit s net = ⟨s, [], false⟩ := by
  simp [saveEdit, h]

/-- Witness for the corrected C5 at a concrete whitespace draft. -/
theorem saveEdit_whitespace_noop_witness :
    saveEdit ⟨[⟨1, "a", false⟩], "", some 1, " "⟩ NetResult.err
      = ⟨⟨[⟨1, "a", false⟩], "", some 1, " "⟩, [], false⟩ :=
  saveEdit_whitespace_noop ⟨[⟨1, "a", false⟩], "", some 1, " "⟩ NetResult.err
    (by decide)

/-- C6 (confirmed).  Over any sequence of successful Adds with non-empty
drafts, every returned item is appended at the tail, so the list ends with
the responses in call order; and after every step of the sequence the draft
text is cleared (every non-empty prefix of the interaction leaves
`newTodo = ""`). -/
theorem add_sequence_tail_order (s : AppState) (steps : List (String × Todo))
    (h : ∀ p ∈ steps, p.1 ≠ "") :
    (addSeq s steps).todos = s.todos ++ steps.map Prod.snd
    ∧ (∀ k, k ≠ 0 → k ≤ steps.length
        → (addSeq s (steps.take k)).newTodo = "") := by
  induction steps generalizing s with
  | nil =>
    refine ⟨by simp [addSeq], ?_⟩
    intro k hk hkle
    exact absurd (Nat.le_zero.mp hkle) hk
  | cons p rest ih =>
    obtain ⟨d, data⟩ := p
    have hd : d ≠ "" := h (d, data) (List.mem_cons_self _ _)
    have hrest : ∀ q ∈ rest, q.1 ≠ "" := fun q hq => h q (List.mem_cons_of_mem _ hq)
    have hstep : (addTodo { s with newTodo := d } (NetResult.ok data)).state
        = { s with todos := s.todos ++ [data], newTodo := "" } := by
      simp [addTodo, hd]
    constructor
    · show (addSeq (addTodo { s with newTodo := d } (NetResult.ok data)).state rest).todos = _
      rw [hstep, (ih _ hrest).1]
      simp
    · intro k hk hkle
      cases k with
      | zero => exact absurd rfl hk
      | succ k' =>
        cases k' with
        | zero =>
          show (addSeq (addTodo { s with newTodo := d } (NetResult.ok data)).state
            (rest.take 0)).newTodo = ""
          rw [hstep]
          simp [addSeq]
        | succ k'' =>
          show (addSeq (addTodo { s with newTodo := d } (NetResult.ok data)).state
            (rest.take (k'' + 1))).newTodo = ""
          rw [hstep]
          exact (ih _ hrest).2 (k'' + 1) (Nat.succ_ne_zero _)
            (by simpa using Nat.le_of_succ_le_succ hkle)

/-- Witness for C6: two Adds in a row land at the tail in call order. -/
theorem add_sequence_tail_order_witness :
    (addSeq ⟨[], "", none, ""⟩
        [("a", ⟨1, "a", false⟩), ("b", ⟨2, "b", false⟩)]).todos
      = ([] : List Todo)
        ++ ([("a", (⟨1, "a", false⟩ : Todo)),
             ("b", (⟨2, "b", false⟩ : Todo))]).map Prod.snd :=
  (add_sequence_tail_order ⟨[], "", none, ""⟩
    [("a", ⟨1, "a", false⟩), ("b", ⟨2, "b", false⟩)] (by decide)).1

/-- C7 (confirmed).  A successful `Delete(id)` keeps exactly the items whose
id differs from `id` (so it removes precisely the matching items and no
other), and when no item carries that id the list is left unchanged. -/
theorem deleteTodo_removes_exactly (s : AppState) (id : Int) :
    (∀ t, t ∈ (deleteTodo s id (NetResult.ok ())).state.todos
        ↔ (t ∈ s.todos ∧ t.id ≠ id))
    ∧ ((∀ t ∈ s.todos, t.id ≠ id)
        → (deleteTodo s id (NetResult.ok ())).state.todos = s.todos) := by
  constructor
  · intro t
    simp [deleteTodo, List.mem_filter]
  · intro h
    show s.todos.filter (fun t => t.id ≠ id) = s.todos
    exact List.filter_eq_self.mpr fun t ht => by simpa using h t ht

/-- Witness for C7: deleting id 2 from a concrete list keeps item 1 and
drops item 2, and deleting an absent id is the identity. -/
theorem deleteTodo_removes_exactly_witness :
    ((⟨1, "a", false⟩ : Todo)
        ∈ (deleteTodo ⟨[⟨1, "a", false⟩, ⟨2, "b", false⟩], "", none, ""⟩ 2
            (NetResult.ok ())).state.todos
      ↔ ((⟨1, "a", false⟩ : Todo) ∈ [(⟨1, "a", false⟩ : Todo), ⟨2, "b", false⟩]
          ∧ (Todo.mk 1 "a" false).id ≠ 2))
    ∧ (deleteTodo ⟨[⟨1, "a", false⟩, ⟨2, "b", false⟩], "", none, ""⟩ 3
        (NetResult.ok ())).state.todos = [⟨1, "a", false⟩, ⟨2, "b", false⟩] :=
  ⟨(deleteTodo_removes_exactly ⟨[⟨1, "a", false⟩, ⟨2, "b", false⟩], "", none, ""⟩ 2).1
      ⟨1, "a", false⟩,
   (deleteTodo_removes_exactly ⟨[⟨1, "a", false⟩, ⟨2, "b", false⟩], "", none, ""⟩ 3).2
      (by decide)⟩

/-- C8 (confirmed).  `startEdit` followed immediately by `cancelEdit` issues
no network request at either step, leaves the local list (and the new-item
draft) unchanged, and returns edit-mode to `Idle`: `editingId` is cleared
and the edit draft is cleared. -/
theorem beginEdit_cancelEdit_roundtrip (s : AppState) (todo : Todo) :
    (startEdit s todo).requests = []
    ∧ (cancelEdit (startEdit s todo).state).requests = []
    ∧ (cancelEdit (startEdit s todo).state).state.todos = s.todos
    ∧ (cancelEdit (startEdit s todo).state).state.newTodo = s.newTodo
    ∧ (cancelEdit (startEdit s todo).state).state.editingId = none
    ∧ (cancelEdit (startEdit s todo).state).state.editTitle = "" := by
  refine ⟨rfl, rfl, rfl, rfl, rfl, rfl⟩

/-- C9 (confirmed).  When the item returned by a Rename or Toggle response
matches no local item's id, the replace-by-id patch is the identity on the
local list: nothing is added, removed or modified. -/
theorem patch_unmatched_id_noop (s : AppState) (id : Int) (title : String)
    (data : Todo) (h : ∀ t ∈ s.todos, t.id ≠ data.id) :
    (updateTodo s id title (NetResult.ok data)).state.todos = s.todos
    ∧ (toggleTodo s id (NetResult.ok data)).state.todos = s.todos := by
  have hmap : s.todos.map (fun t => if t.id = data.id then data else t) = s.todos := by
    rw [List.map_congr_left fun t ht => if_neg (h t ht), List.map_id']
  exact ⟨hmap, hmap⟩

/-- Witness for C9: a response with id 9 matching nothing leaves a concrete
list unchanged. -/
theorem patch_unmatched_id_noop_witness :
    (updateTodo ⟨[⟨1, "a", false⟩, ⟨2, "b", false⟩], "", none, ""⟩ 9 "t"
        (NetResult.ok ⟨9, "t", false⟩)).state.todos
      = [⟨1, "a", false⟩, ⟨2, "b", false⟩]
    ∧ (toggleTodo ⟨[⟨1, "a", false⟩, ⟨2, "b", false⟩], "", none, ""⟩ 9
        (NetResult.ok ⟨9, "t", false⟩)).state.todos
      = [⟨1, "a", false⟩, ⟨2, "b", false⟩] :=
  patch_unmatched_id_noop ⟨[⟨1, "a", false⟩, ⟨2, "b", false⟩], "", none, ""⟩ 9 "t"
    ⟨9, "t", false⟩ (by decide)

/-- Appending on the right preserves precedence. -/
theorem precedes_append (x y : Todo) (l l' : List Todo) (h : Precedes x y l) :
    Precedes x y (l ++ l') :=
  h.trans (List.sublist_append_left l l')

/-- Any element of the replace-by-id patch that carries the patched id is the
patch item itself. -/
theorem mem_replaceById (data z : Todo) (l : List Todo)
    (hz : z ∈ l.map (fun t => if t.id = data.id then data else t))
    (hid : z.id = data.id) : z = data := by
  obtain ⟨t, ht, hz'⟩ := List.mem_map.mp hz
  by_cases hc : t.id = data.id
  · rw [← hz', if_pos hc]
  · rw [← hz', if_neg hc] at hid
    exact absurd hid hc

/-- The replace-by-id patch preserves precedence of the items it keeps. -/
theorem precedes_replaceById (x y data : Todo) (l : List Todo)
    (h : Precedes x y l)
    (hx : x ∈ l.map (fun t => if t.id = data.id then data else t))
    (hy : y ∈ l.map (fun t => if t.id = data.id then data else t)) :
    Precedes x y (l.map (fun t => if t.id = data.id then data else t)) := by
  have hfx : (if x.id = data.id then data else x) = x := by
    by_cases hc : x.id = data.id
    · rw [if_pos hc, mem_replaceById data x l hx hc]
    · exact if_neg hc
  have hfy : (if y.id = data.id then data else y) = y := by
    by_cases hc : y.id = data.id
    · rw [if_pos hc, mem_replaceById data y l hy hc]
    · exact if_neg hc
  have hm := h.map (fun t => if t.id = data.id then data else t)
  simpa [Precedes, hfx, hfy] using hm

/-- Filtering preserves precedence of the items it keeps. -/
theorem precedes_filter (x y : Todo) (l : List Todo) (p : Todo → Bool)
    (h : Precedes x y l) (hx : p x = true) (hy : p y = true) :
    Precedes x y (l.filter p) := by
  have := h.filter p
  simpa [Precedes, hx, hy] using this

/-- C10 (confirmed).  Every local-list patch — Add's append, Rename's and
Toggle's replace-by-id, Delete's filter-by-id — preserves the relative order
of the items it does not remove: whenever `x` occurs before `y` in the list
and both are still present after the operation, `x` still occurs before `y`
afterwards. -/
theorem patches_preserve_relative_order (s : AppState) (x y : Todo)
    (id : Int) (title : String) (data : Todo) :
    (Precedes x y s.todos
        → Precedes x y (addTodo s (NetResult.ok data)).state.todos)
    ∧ (Precedes x y s.todos
        → x ∈ (updateTodo s id title (NetResult.ok data)).state.todos
        → y ∈ (updateTodo s id title (NetResult.ok data)).state.todos
        → Precedes x y (updateTodo s id title (NetResult.ok data)).state.todos)
    ∧ (Precedes x y s.todos
        → x ∈ (deleteTodo s id (NetResult.ok ())).state.todos
        → y ∈ (deleteTodo s id (NetResult.ok ())).state.todos
        → Precedes x y (deleteTodo s id (NetResult.ok ())).state.todos)
    ∧ (Precedes x y s.todos
        → x ∈ (toggleTodo s id (NetResult.ok data)).state.todos
        → y ∈ (toggleTodo s id (NetResult.ok data)).state.todos
        → Precedes x y (toggleTodo s id (NetResult.ok data)).state.todos) := by
  refine ⟨?_, ?_, ?_, ?_⟩
  · intro h
    by_cases hn : s.newTodo = ""
    · simpa [addTodo, hn] using h
    · simpa [addTodo, hn] using precedes_append x y s.todos [data] h
  · intro h hx hy
    exact precedes_replaceById x y data s.todos h hx hy
  · intro h hx hy
    exact precedes_filter x y s.todos (fun t => t.id ≠ id) h
      (List.mem_filter.mp hx).2 (List.mem_filter.mp hy).2
  · intro h hx hy
    exact precedes_replaceById x y data s.todos h hx hy

/-- Witness for C10: in a concrete three-item list, deleting the middle item
keeps the outer two in their original order. -/
theorem patches_preserve_relative_order_witness :
    Precedes ⟨1, "a", false⟩ ⟨3, "c", false⟩
      (deleteTodo ⟨[⟨1, "a", false⟩, ⟨2, "b", false⟩, ⟨3, "c", false⟩],
          "", none, ""⟩ 2 (NetResult.ok ())).state.todos :=
  (patches_preserve_relative_order
      ⟨[⟨1, "a", false⟩, ⟨2, "b", false⟩, ⟨3, "c", false⟩], "", none, ""⟩
      ⟨1, "a", false⟩ ⟨3, "c", false⟩ 2 "t" ⟨2, "x", false⟩).2.2.1
    (by decide) (by decide) (by decide)

end Theorems
